import Mathlib

/-!
# InspIRCd: the `j` channel extended ban and the command descriptor

A shallow embedding of

* `src/modules/m_channelban.cpp` : `ModuleBadChannelExtban::OnCheckBan` and
  `OnBuildISupport`
* `include/ctables.h`            : `command_t` and its constructor

A `std::string` is embedded as a `List Char`.  The two partial string
operations the module uses (`operator[]` and the substring constructor /
`assign`) return `Option`, `none` standing for undefined behaviour or a
thrown `std::out_of_range`, so that `OnCheckBan` itself returns
`Option ModResult`.

`inspircd.h` is not among the sources, so what it declares and the module
calls (`ModeParser::FindPrefix`, `InspIRCd::Match`, `Membership::HasMode`)
is taken as a parameter, gathered in `InspIRCd`.  Concrete instances, used to
evaluate the module on examples, are modelled from the specification.
-/

set_option linter.unusedVariables false

namespace ChannelBan

/-! ## Strings -/

/-- The byte `0`, the value of `char status = 0`. -/
def NUL : Char := Char.ofNat 0

/-- `s[i]` of `std::string`: the character at `i` when `i < size()`, the
terminating zero when `i = size()`, undefined beyond. -/
def std_index (s : List Char) (i : Nat) : Option Char :=
  if i < s.length then s.get? i
  else if i = s.length then some NUL
  else none

/-- `std::string(s, pos)` and `assign(s, pos, npos)`: the suffix of `s` from
`pos`; throws `std::out_of_range` when `pos > size()`. -/
def std_substr (s : List Char) (pos : Nat) : Option (List Char) :=
  if pos ≤ s.length then some (s.drop pos) else none

/-! ## The parts of `inspircd.h` the module uses -/

/-- The three verdicts of a hook (`ModResult`). -/
inductive ModResult where
  | MOD_RES_DENY
  | MOD_RES_PASSTHRU
  | MOD_RES_ALLOW
  deriving DecidableEq, Repr

open ModResult

/-- A prefix mode (privilege tier): the prefix character that names it in a
mask (`GetPrefix`), its mode letter (`GetModeChar`) and its rank. -/
structure PrefixMode where
  pfx : Char
  modeChar : Char
  rank : Nat
  deriving DecidableEq, Repr

/-- A channel, of which the module reads only `name`. -/
structure Channel where
  name : List Char
  deriving DecidableEq, Repr

/-- Modelled from the spec: the class `Membership` of `inspircd.h`, as the
data model gives it: a channel and the privilege tier character the user
holds there, or none (the user is the owner of the list the membership is
in). -/
structure Membership where
  chan : Channel
  tier : Option Char
  deriving DecidableEq, Repr

/-- A user, of which the module reads only the membership list `chans`. -/
structure User where
  chans : List Membership
  deriving DecidableEq, Repr

/-- What the module calls and `inspircd.h` declares:
`ServerInstance->Modes.FindPrefix`, `InspIRCd::Match(str, mask)` and
`Membership::HasMode`. -/
structure InspIRCd where
  FindPrefix : Char → Option PrefixMode
  Match : List Char → List Char → Bool
  HasMode : Membership → PrefixMode → Bool

/-! ## `ModuleBadChannelExtban::OnCheckBan` -/

/-- The guard of line 42,
`(mask.length() > 2) && (mask[0] == 'j') && (mask[1] == ':')`,
with the short-circuit evaluation of `&&`. -/
def maskGuard (mask : List Char) : Option Bool :=
  if mask.length > 2 then
    match std_index mask 0 with
    | none => none
    | some m0 =>
      if m0 = 'j' then
        match std_index mask 1 with
        | none => none
        | some m1 => some (decide (m1 = ':'))
      else some false
  else some false

/-- The loop of lines 52-59 over `user->chans`: `some true` when the body
returns `MOD_RES_DENY`, `some false` when the loop runs to its end.
`(!status) || (*i)->HasMode(mh)` short-circuits; `HasMode` through a null
`mh` is undefined. -/
def chansLoop (S : InspIRCd) (rm : List Char) (status : Char) (mh : Option PrefixMode) :
    List Membership → Option Bool
  | [] => some false
  | i :: rest =>
    if S.Match i.chan.name rm then
      if status = NUL then some true
      else
        match mh with
        | none => none
        | some p => if S.HasMode i p then some true else chansLoop S rm status mh rest
    else chansLoop S rm status mh rest

/-- The body of the `if` of line 42 (lines 44-59). -/
def checkBody (S : InspIRCd) (user : User) (mask : List Char) : Option ModResult :=
  match std_substr mask 2 with
  | none => none
  | some rm0 =>
    match std_index rm0 0 with
    | none => none
    | some r0 =>
      let mh := S.FindPrefix r0
      let step : Option (List Char × Char) :=
        match mh with
        | some p =>
          match std_substr mask 3 with
          | none => none
          | some rm1 => some (rm1, p.modeChar)
        | none => some (rm0, NUL)
      match step with
      | none => none
      | some (rm, status) =>
        match chansLoop S rm status mh user.chans with
        | none => none
        | some true => some MOD_RES_DENY
        | some false => some MOD_RES_PASSTHRU

/-- `ModResult OnCheckBan(User* user, Channel* c, const std::string& mask)`. -/
def OnCheckBan (S : InspIRCd) (user : User) (c : Channel) (mask : List Char) :
    Option ModResult :=
  match maskGuard mask with
  | none => none
  | some true => checkBody S user mask
  | some false => some MOD_RES_PASSTHRU

/-- The verdict of the loop, as `OnCheckBan` returns it. -/
def verdictOf (b : Bool) : ModResult :=
  if b then MOD_RES_DENY else MOD_RES_PASSTHRU

/-! ## Concrete collaborators, for evaluating the module on examples -/

/-- ASCII lower case of a character, by its code. -/
def lowerCode (c : Char) : Nat :=
  if 65 ≤ c.toNat ∧ c.toNat ≤ 90 then c.toNat + 32 else c.toNat

/-- The star case of the glob match: `k` (the match of the rest of the
pattern) must accept some suffix of the string. -/
def globStar (k : List Char → Bool) : List Char → Bool
  | [] => k []
  | c :: cs => k (c :: cs) || globStar k cs

/-- The glob match of a pattern against a string, pattern first. -/
def globMatch : List Char → List Char → Bool
  | [], s => s.isEmpty
  | p :: ps, s =>
    if p = '*' then globStar (globMatch ps) s
    else
      match s with
      | [] => false
      | c :: cs => (decide (p = '?') || decide (lowerCode p = lowerCode c)) && globMatch ps cs

/-- Modelled from the spec: `InspIRCd::Match(str, mask)`, the Pattern
Matcher interface `Match(candidateString, globPattern)`: case-insensitive,
`*` matches any run of characters, the empty one included, and `?` exactly
one character. -/
def Match (str mask : List Char) : Bool := globMatch mask str

/-- The prefix modes of a server with founders, operators and voiced users. -/
def prefixModes : List PrefixMode :=
  [⟨'~', 'q', 50000⟩, ⟨'@', 'o', 30000⟩, ⟨'+', 'v', 10000⟩]

/-- Modelled from the spec: `ModeParser::FindPrefix`, the lookup of the
known privilege tier a character names, over the list of prefix modes. -/
def FindPrefix (modes : List PrefixMode) (pfxletter : Char) : Option PrefixMode :=
  modes.find? (fun pm => decide (pm.pfx = pfxletter))

/-- Modelled from the spec: `Membership::HasMode`, in the spec's words
"the user holds at least that tier in that channel": the tier the
membership records is a known one (by the lookup `find`) whose rank is at
least the rank of `mh`. -/
def HasMode (find : Char → Option PrefixMode) (memb : Membership) (mh : PrefixMode) : Bool :=
  match memb.tier with
  | none => false
  | some t =>
    match find t with
    | none => false
    | some held => decide (mh.rank ≤ held.rank)

/-- The server assembled from the collaborators modelled from the spec. -/
def specServer : InspIRCd :=
  ⟨FindPrefix prefixModes, Match, HasMode (FindPrefix prefixModes)⟩

/-- The user of the ban evaluator scenario: operator (`@`) in `#general`,
no tier in `#random`. -/
def scenarioUser : User :=
  ⟨[⟨⟨"#general".toList⟩, some '@'⟩, ⟨⟨"#random".toList⟩, none⟩]⟩

/-- A user who is founder (`~`) of `#general`, a tier ranked above `@`. -/
def founderUser : User :=
  ⟨[⟨⟨"#general".toList⟩, some '~'⟩]⟩

/-- A user who belongs to no channel. -/
def loneUser : User := ⟨[]⟩

/-- The channel the ban is checked on in the examples. -/
def scenarioChan : Channel := ⟨"#lobby".toList⟩

/-! ## `ModuleBadChannelExtban::OnBuildISupport` -/

/-- Modelled from the spec: `ISupport::TokenMap` of `modules/isupport.h`
(not among the sources), a map from token names to values, as the list of
its entries; the entry of a key is the first one that carries it. -/
abbrev TokenMap := List (List Char × List Char)

/-- The value a token map holds for `key`, if any. -/
def TokenMap.value (tokens : TokenMap) (key : List Char) : Option (List Char) :=
  (tokens.find? (fun e => decide (e.1 = key))).map (fun e => e.2)

/-- The effect of `tokens[key]` on the map: an absent key is inserted with
the empty string as its value. -/
def TokenMap.subscript (tokens : TokenMap) (key : List Char) : TokenMap :=
  match TokenMap.value tokens key with
  | some _ => tokens
  | none => tokens ++ [(key, [])]

/-- The call `push_back(ch)` through the reference `tokens[key]` returns:
`ch` is appended to the value of the entry of `key`. -/
def TokenMap.push_back (key : List Char) (ch : Char) : TokenMap → TokenMap
  | [] => []
  | e :: rest =>
    if e.1 = key then (e.1, e.2 ++ [ch]) :: rest
    else e :: TokenMap.push_back key ch rest

/-- `void OnBuildISupport(ISupport::TokenMap& tokens)`:
`tokens["EXTBAN"].push_back('j');`, returning the map afterwards. -/
def OnBuildISupport (tokens : TokenMap) : TokenMap :=
  TokenMap.push_back "EXTBAN".toList 'j' (TokenMap.subscript tokens "EXTBAN".toList)

/-- A token map that already advertises extended bans. -/
def sampleTokens : TokenMap :=
  [("CHANMODES".toList, "b,k,l,imnpst".toList), ("EXTBAN".toList, ",c".toList),
   ("NICKLEN".toList, "31".toList)]

/-- A token map without the `EXTBAN` token. -/
def bareTokens : TokenMap := [("NICKLEN".toList, "31".toList)]

end ChannelBan

namespace CTables

/-! ## `command_t` (`include/ctables.h`) -/

/-- The data members of `class command_t`; `int` and `long` are embedded as
`Int` (the constructor only stores its arguments and zero). -/
structure command_t where
  command : List Char
  flags_needed : Char
  min_params : Int
  use_count : Int
  total_bytes : Int
  source : List Char
  deriving DecidableEq, Repr

/-- The constructor `command_t(std::string cmd, char flags, int minpara)`:
the initialiser list sets `command`, `flags_needed` and `min_params`, the
body runs `use_count = total_bytes = 0; source = "<core>";`.  The members
the initialiser list leaves out start as `u`, `b` (indeterminate) and the
empty string. -/
def command_t.ctor (cmd : List Char) (flags : Char) (minpara : Int)
    (u b : Int) : command_t :=
  let this : command_t := ⟨cmd, flags, minpara, u, b, []⟩
  let this : command_t := { this with total_bytes := 0 }
  let this : command_t := { this with use_count := this.total_bytes }
  { this with source := "<core>".toList }

/-! ## The command table -/

/-- What a handler reports: handled, accepted with the result pending, or a
structured error. -/
inductive HandlerResult where
  | handled
  | pending
  | failed (err : List Char)
  deriving DecidableEq, Repr

/-- The validation failures of `Dispatch`. -/
inductive DispatchError where
  | UnknownCommandError
  | InsufficientParamsError
  | InsufficientPrivilegeError
  deriving DecidableEq, Repr

/-- The registration failure. -/
inductive RegisterError where
  | DuplicateNameError
  deriving DecidableEq, Repr

/-- A registered command: the descriptor and the bound handler
(`command_t::Handle`, pure virtual in the header). -/
structure Entry where
  cmd : command_t
  Handle : List (List Char) → HandlerResult

/-- The table `command_table` (a hash map from the name to the command),
as the list of its entries, with the record of the handler invocations made
so far (command name and parameters, oldest first). -/
structure CommandTable where
  entries : List Entry
  invoked : List (List Char × List (List Char))

/-- The entry registered under `name`, if any. -/
def CommandTable.find (t : CommandTable) (name : List Char) : Option Entry :=
  t.entries.find? (fun e => decide (e.cmd.command = name))

/-- Modelled from the spec: `Register(name, minParams, requiredFlag, owner)`,
absent from the sources: fails with `DuplicateNameError` when `name` is
present, else adds the command built by the constructor, owned by `owner`,
with zero counters. -/
def Register (t : CommandTable) (name : List Char) (minParams : Int) (requiredFlag : Char)
    (owner : List Char) (handler : List (List Char) → HandlerResult) :
    Except RegisterError CommandTable :=
  match t.find name with
  | some _ => Except.error RegisterError.DuplicateNameError
  | none =>
    let cmd := { command_t.ctor name requiredFlag minParams 0 0 with source := owner }
    Except.ok ⟨t.entries ++ [⟨cmd, handler⟩], t.invoked⟩

/-- The usage accounting after a handler has run: one more use, and the
summed byte length of the parameters. -/
def account (params : List (List Char)) (e : Entry) : Entry :=
  { e with cmd := { e.cmd with
      use_count := e.cmd.use_count + 1
      total_bytes := e.cmd.total_bytes + ((params.map List.length).sum : Nat) } }

/-- Modelled from the spec: `Dispatch(name, params, invokerPrivilegeFlags)`,
absent from the sources (the header only declares `command_t` and
`command_table`).  Validation order: unknown name, then
`len(params) < minParams`, then `requiredFlag != 0` and the invoker lacks
it; otherwise the bound handler is invoked, then the use count is
incremented and the summed byte length of `params` added to the byte
counter.  Returns the outcome and the table afterwards. -/
def Dispatch (t : CommandTable) (name : List Char) (params : List (List Char))
    (invokerPrivilegeFlags : List Char) :
    Except DispatchError HandlerResult × CommandTable :=
  match t.find name with
  | none => (Except.error DispatchError.UnknownCommandError, t)
  | some e =>
    if (params.length : Int) < e.cmd.min_params then
      (Except.error DispatchError.InsufficientParamsError, t)
    else if e.cmd.flags_needed ≠ Char.ofNat 0 ∧ e.cmd.flags_needed ∉ invokerPrivilegeFlags then
      (Except.error DispatchError.InsufficientPrivilegeError, t)
    else
      let r := e.Handle params
      (Except.ok r,
        ⟨t.entries.map (fun x => if x.cmd.command = name then account params x else x),
         t.invoked ++ [(name, params)]⟩)

/-- A handler that reports the command as handled. -/
def okHandler : List (List Char) → HandlerResult := fun _ => HandlerResult.handled

/-- The entry of a core command `PRIVMSG` taking at least two parameters,
already used three times. -/
def privmsgEntry : Entry :=
  ⟨⟨"PRIVMSG".toList, Char.ofNat 0, 2, 3, 40, "<core>".toList⟩, okHandler⟩

/-- A table holding `PRIVMSG` alone. -/
def sampleTable : CommandTable := ⟨[privmsgEntry], []⟩

end CTables

namespace EventChain

open ChannelBan (ModResult)
open ChannelBan.ModResult

/-! ## The event dispatch chain -/

/-- The event types, a fixed enumeration. -/
inductive EventType where
  | CheckBan
  | BuildISupport
  deriving DecidableEq, Repr

/-- A subscription: its identifier, event type, owning unit, priority,
registration sequence number and listener.  A listener returns its verdict,
or `none` when it faults. -/
structure Subscription (π : Type) where
  id : Nat
  eventType : EventType
  owner : List Char
  priority : Int
  seq : Nat
  listener : π → Option ModResult

/-- The ordering key of the subscriptions: priority ascending, then
registration sequence ascending. -/
def before {π : Type} (a b : Subscription π) : Prop :=
  a.priority < b.priority ∨ (a.priority = b.priority ∧ a.seq ≤ b.seq)

instance {π : Type} : DecidableRel (before : Subscription π → Subscription π → Prop) :=
  fun a b => by unfold before; exact inferInstance

/-- The subscriptions of an event type in the order `Fire` visits them. -/
def chainOrder {π : Type} (subs : List (Subscription π)) (ev : EventType) :
    List (Subscription π) :=
  (subs.filter (fun s => decide (s.eventType = ev))).insertionSort before

/-- What a firing leaves behind: the verdict, the identifiers of the
listeners invoked, in order, and those of the listeners that faulted. -/
structure Fired where
  verdict : ModResult
  invoked : List Nat
  faults : List Nat
  deriving DecidableEq, Repr

/-- The iteration of `Fire` over the ordered listeners: ALLOW or DENY stops
it at once, PASSTHRU continues, a fault is reported and counts as PASSTHRU. -/
def runChain {π : Type} (payload : π) : List (Subscription π) → Fired
  | [] => ⟨MOD_RES_PASSTHRU, [], []⟩
  | s :: rest =>
    match s.listener payload with
    | some MOD_RES_ALLOW => ⟨MOD_RES_ALLOW, [s.id], []⟩
    | some MOD_RES_DENY => ⟨MOD_RES_DENY, [s.id], []⟩
    | some MOD_RES_PASSTHRU =>
      let r := runChain payload rest
      ⟨r.verdict, s.id :: r.invoked, r.faults⟩
    | none =>
      let r := runChain payload rest
      ⟨r.verdict, s.id :: r.invoked, s.id :: r.faults⟩

/-- Modelled from the spec: `Fire(eventType, eventPayload)`, absent from the
sources: iterate the subscriptions of the event type in the order of the
key (priority, registration sequence); the first ALLOW or DENY is returned
and no listener after it runs; PASSTHRU when every listener passes or there
is none. -/
def Fire {π : Type} (subs : List (Subscription π)) (ev : EventType) (payload : π) : Fired :=
  runChain payload (chainOrder subs ev)

/-- Whether the listener of a subscription is authoritative on a payload:
it returns ALLOW or DENY. -/
def authoritative {π : Type} (payload : π) (s : Subscription π) : Prop :=
  s.listener payload = some MOD_RES_ALLOW ∨ s.listener payload = some MOD_RES_DENY

instance {π : Type} (payload : π) : DecidablePred (authoritative payload) :=
  fun s => by unfold authoritative; exact inferInstance

/-- A listener that passes, at priority 0, registered third. -/
def passer : Subscription Unit :=
  ⟨10, EventType.CheckBan, "m_a".toList, 0, 2, fun _ => some MOD_RES_PASSTHRU⟩

/-- A listener that denies, at priority 1, registered second. -/
def denier : Subscription Unit :=
  ⟨11, EventType.CheckBan, "m_b".toList, 1, 1, fun _ => some MOD_RES_DENY⟩

/-- A spy listener that would allow, at priority 5, registered first. -/
def spy : Subscription Unit :=
  ⟨12, EventType.CheckBan, "m_c".toList, 5, 0, fun _ => some MOD_RES_ALLOW⟩

/-- A listener of another event type. -/
def other : Subscription Unit :=
  ⟨13, EventType.BuildISupport, "m_d".toList, 0, 3, fun _ => some MOD_RES_ALLOW⟩

/-- The subscriptions of the example, in registration order. -/
def sampleSubs : List (Subscription Unit) := [spy, denier, passer, other]

end EventChain

namespace ChannelBan

open ModResult

/-! ## How `OnCheckBan` evaluates -/

theorem maskGuard_tagged (r : Char) (rest : List Char) :
    maskGuard ('j' :: ':' :: r :: rest) = some true := by
  simp [maskGuard, std_index]

theorem maskGuard_short (mask : List Char) (h : mask.length ≤ 2) :
    maskGuard mask = some false := by
  have h2 : ¬ mask.length > 2 := by omega
  simp [maskGuard, h2]

theorem maskGuard_untagged (mask : List Char) (h : ¬ ['j', ':'] <+: mask) :
    maskGuard mask = some false := by
  match mask, h with
  | [], _ => exact maskGuard_short _ (by simp)
  | [_], _ => exact maskGuard_short _ (by simp)
  | [_, _], _ => exact maskGuard_short _ (by simp)
  | a :: b :: d :: rest, h =>
    by_cases ha : a = 'j'
    · by_cases hb : b = ':'
      · exact absurd ⟨d :: rest, by simp [ha, hb]⟩ h
      · simp [maskGuard, std_index, ha, hb]
    · simp [maskGuard, std_index, ha]

theorem maskGuard_total (mask : List Char) : ∃ b, maskGuard mask = some b := by
  match mask with
  | [] => exact ⟨false, maskGuard_short _ (by simp)⟩
  | [_] => exact ⟨false, maskGuard_short _ (by simp)⟩
  | [_, _] => exact ⟨false, maskGuard_short _ (by simp)⟩
  | a :: b :: d :: rest =>
    by_cases ha : a = 'j'
    · exact ⟨decide (b = ':'), by simp [maskGuard, std_index, ha]⟩
    · exact ⟨false, by simp [maskGuard, std_index, ha]⟩

theorem maskGuard_true (mask : List Char) (h : maskGuard mask = some true) :
    ∃ r rest, mask = 'j' :: ':' :: r :: rest := by
  match mask, h with
  | [], h => simp [maskGuard_short] at h
  | [_], h => simp [maskGuard_short] at h
  | [_, _], h => simp [maskGuard_short] at h
  | a :: b :: d :: rest, h =>
    by_cases ha : a = 'j'
    · by_cases hb : b = ':'
      · exact ⟨d, rest, by simp [ha, hb]⟩
      · simp [maskGuard, std_index, ha, hb] at h
    · simp [maskGuard, std_index, ha] at h

/-- With no tier required (`status` zero) the loop looks only at the names. -/
theorem chansLoop_nul (S : InspIRCd) (rm : List Char) (mh : Option PrefixMode)
    (chans : List Membership) :
    chansLoop S rm NUL mh chans = some (chans.any fun i => S.Match i.chan.name rm) := by
  induction chans with
  | nil => rfl
  | cons i rest ih =>
    by_cases hm : S.Match i.chan.name rm = true
    · simp [chansLoop, hm]
    · simp [chansLoop, hm, ih]

/-- With a prefix mode found the loop is defined, and denies at a matching
name when `status` is zero or the membership has the mode. -/
theorem chansLoop_prefix (S : InspIRCd) (rm : List Char) (status : Char) (p : PrefixMode)
    (chans : List Membership) :
    chansLoop S rm status (some p) chans =
      some (chans.any fun i =>
        S.Match i.chan.name rm && (decide (status = NUL) || S.HasMode i p)) := by
  induction chans with
  | nil => rfl
  | cons i rest ih =>
    by_cases hm : S.Match i.chan.name rm = true
    · by_cases hs : status = NUL
      · simp [chansLoop, hm, hs]
      · by_cases hh : S.HasMode i p = true
        · simp [chansLoop, hm, hs, hh]
        · simp [chansLoop, hm, hs, hh, ih]
    · simp [chansLoop, hm, ih]

/-- The verdict on a tagged mask whose third character names no prefix mode. -/
theorem OnCheckBan_bare (S : InspIRCd) (user : User) (c : Channel) (r : Char)
    (rest : List Char) (h : S.FindPrefix r = none) :
    OnCheckBan S user c ('j' :: ':' :: r :: rest) =
      some (verdictOf (user.chans.any fun i => S.Match i.chan.name (r :: rest))) := by
  simp only [OnCheckBan, maskGuard_tagged, checkBody, std_substr, std_index]
  simp only [List.length_cons, List.drop_succ_cons, List.drop_zero, h, chansLoop_nul]
  cases hany : (user.chans.any fun i => S.Match i.chan.name (r :: rest)) <;>
    simp [verdictOf, h, chansLoop_nul, hany]

/-- The verdict on a tagged mask whose third character names a prefix mode. -/
theorem OnCheckBan_tier (S : InspIRCd) (user : User) (c : Channel) (r : Char)
    (rest : List Char) (p : PrefixMode) (h : S.FindPrefix r = some p) :
    OnCheckBan S user c ('j' :: ':' :: r :: rest) =
      some (verdictOf (user.chans.any fun i =>
        S.Match i.chan.name rest && (decide (p.modeChar = NUL) || S.HasMode i p))) := by
  simp only [OnCheckBan, maskGuard_tagged, checkBody, std_substr, std_index]
  simp only [List.length_cons, List.drop_succ_cons, List.drop_zero, h, chansLoop_prefix]
  cases hany : (user.chans.any fun i =>
      S.Match i.chan.name rest && (decide (p.modeChar = NUL) || S.HasMode i p)) <;>
    simp [verdictOf, h, chansLoop_prefix, hany]

/-- On every mask the hook returns, and returns the verdict of a loop that
can only deny at a membership of the user. -/
theorem OnCheckBan_verdict (S : InspIRCd) (user : User) (c : Channel) (mask : List Char) :
    ∃ b, OnCheckBan S user c mask = some (verdictOf b) ∧ (user.chans = [] → b = false) := by
  obtain ⟨g, hg⟩ := maskGuard_total mask
  cases g with
  | false => exact ⟨false, by simp [OnCheckBan, hg, verdictOf], fun _ => rfl⟩
  | true =>
    obtain ⟨r, rest, rfl⟩ := maskGuard_true mask hg
    cases hf : S.FindPrefix r with
    | none =>
      exact ⟨_, OnCheckBan_bare S user c r rest hf, fun hc => by simp [hc]⟩
    | some p =>
      exact ⟨_, OnCheckBan_tier S user c r rest p hf, fun hc => by simp [hc]⟩

/-! ## The claims on `OnCheckBan` -/

/-- C1 (as stated, refuted): the user of the scenario belongs to `#general`,
whose name matches `#gen*`, and holds the known tier `@` there, yet
`OnCheckBan` with the mask `j:@:#gen*` returns PASSTHRU: only the tier
character is stripped, and the pattern left, `:#gen*`, does not match
`#general`. -/
theorem C1_colon_mask_passthru :
    specServer.FindPrefix '@' = some ⟨'@', 'o', 30000⟩ ∧
    (∃ m ∈ scenarioUser.chans, m.chan.name = "#general".toList ∧
      specServer.Match m.chan.name "#gen*".toList = true ∧
      specServer.HasMode m ⟨'@', 'o', 30000⟩ = true) ∧
    OnCheckBan specServer scenarioUser scenarioChan "j:@:#gen*".toList =
      some MOD_RES_PASSTHRU := by
  decide

/-- C1 (amended): for every known privilege tier `T`, every pattern `P` and
every user who belongs to a channel whose name matches `P` and in which they
hold `T`, `OnCheckBan` with the mask `j:` + `T` + `P`, the tier character
directly followed by the pattern, returns DENY. -/
theorem C1_tier_mask_deny (S : InspIRCd) (user : User) (c : Channel) (T : Char)
    (P : List Char) (mh : PrefixMode) (m : Membership)
    (hT : S.FindPrefix T = some mh) (hm : m ∈ user.chans)
    (hP : S.Match m.chan.name P = true) (hH : S.HasMode m mh = true) :
    OnCheckBan S user c ('j' :: ':' :: T :: P) = some MOD_RES_DENY := by
  rw [OnCheckBan_tier S user c T P mh hT]
  have hany : (user.chans.any fun i =>
      S.Match i.chan.name P && (decide (mh.modeChar = NUL) || S.HasMode i mh)) = true :=
    List.any_eq_true.mpr ⟨m, hm, by simp [hP, hH]⟩
  simp [verdictOf, hany]

/-- C1 (amended), at the scenario: operator in `#general`, mask `j:@#gen*`. -/
theorem C1_tier_mask_deny_witness :
    OnCheckBan specServer scenarioUser scenarioChan "j:@#gen*".toList = some MOD_RES_DENY :=
  C1_tier_mask_deny specServer scenarioUser scenarioChan '@' "#gen*".toList ⟨'@', 'o', 30000⟩
    ⟨⟨"#general".toList⟩, some '@'⟩ (by decide) (by decide) (by decide) (by decide)

/-- C2: on a mask `j:` + `R` with `R` non-empty whose first character names
no privilege tier, `OnCheckBan` returns DENY exactly when the user belongs to
a channel whose name matches the whole of `R` (no tier is looked at), and
PASSTHRU otherwise. -/
theorem C2_bare_mask (S : InspIRCd) (user : User) (c : Channel) (r : Char)
    (rest : List Char) (h : S.FindPrefix r = none) :
    (OnCheckBan S user c ('j' :: ':' :: r :: rest) = some MOD_RES_DENY ↔
      ∃ m ∈ user.chans, S.Match m.chan.name (r :: rest) = true) ∧
    ((¬ ∃ m ∈ user.chans, S.Match m.chan.name (r :: rest) = true) →
      OnCheckBan S user c ('j' :: ':' :: r :: rest) = some MOD_RES_PASSTHRU) := by
  rw [OnCheckBan_bare S user c r rest h]
  cases hany : (user.chans.any fun i => S.Match i.chan.name (r :: rest)) with
  | false =>
    have hno : ¬ ∃ m ∈ user.chans, S.Match m.chan.name (r :: rest) = true := by
      intro ⟨m, hm, hp⟩
      have : (user.chans.any fun i => S.Match i.chan.name (r :: rest)) = true :=
        List.any_eq_true.mpr ⟨m, hm, hp⟩
      simp [hany] at this
    simp [verdictOf, hno]
  | true =>
    have hyes : ∃ m ∈ user.chans, S.Match m.chan.name (r :: rest) = true :=
      List.any_eq_true.mp hany
    simp [verdictOf, hyes]

/-- C2, at the scenario: memberships `#general` and `#random`, mask
`j:#xyz*`, PASSTHRU. -/
theorem C2_bare_mask_witness :
    OnCheckBan specServer scenarioUser scenarioChan "j:#xyz*".toList =
      some MOD_RES_PASSTHRU :=
  (C2_bare_mask specServer scenarioUser scenarioChan '#' "xyz*".toList (by decide)).2
    (by decide)

/-- C3: on a mask that does not begin with the two characters `j:`,
`OnCheckBan` returns PASSTHRU, whatever the user, their memberships and the
channel. -/
theorem C3_untagged_passthru (S : InspIRCd) (user : User) (c : Channel) (mask : List Char)
    (h : ¬ ['j', ':'] <+: mask) :
    OnCheckBan S user c mask = some MOD_RES_PASSTHRU := by
  simp [OnCheckBan, maskGuard_untagged mask h]

/-- C3, at the mask `k:#gen*` and the user of the scenario. -/
theorem C3_untagged_passthru_witness :
    OnCheckBan specServer scenarioUser scenarioChan "k:#gen*".toList =
      some MOD_RES_PASSTHRU :=
  C3_untagged_passthru specServer scenarioUser scenarioChan "k:#gen*".toList (by decide)

/-- C4: on a mask `j:` + `T` + pattern where `T` names a privilege tier with
a non-zero mode letter, if the user holds `T` in none of their channels whose
name matches the pattern (what follows the tier character), `OnCheckBan`
returns PASSTHRU. -/
theorem C4_tier_not_held_passthru (S : InspIRCd) (user : User) (c : Channel) (T : Char)
    (rest : List Char) (mh : PrefixMode) (hT : S.FindPrefix T = some mh)
    (hz : mh.modeChar ≠ NUL)
    (hno : ∀ m ∈ user.chans, S.Match m.chan.name rest = true → S.HasMode m mh = false) :
    OnCheckBan S user c ('j' :: ':' :: T :: rest) = some MOD_RES_PASSTHRU := by
  rw [OnCheckBan_tier S user c T rest mh hT]
  have hany : (user.chans.any fun i =>
      S.Match i.chan.name rest && (decide (mh.modeChar = NUL) || S.HasMode i mh)) = false := by
    rw [List.any_eq_false]
    intro m hm
    by_cases hp : S.Match m.chan.name rest = true
    · simp [hp, hz, hno m hm hp]
    · simp [hp]
  simp [verdictOf, hany]

/-- C4, at the scenario (no tier in `#random`): PASSTHRU on `j:@:#ran*`,
and on `j:@#ran*`, whose pattern does match `#random`. -/
theorem C4_tier_not_held_passthru_witness :
    OnCheckBan specServer scenarioUser scenarioChan "j:@:#ran*".toList =
      some MOD_RES_PASSTHRU ∧
    specServer.Match "#random".toList "#ran*".toList = true ∧
    OnCheckBan specServer scenarioUser scenarioChan "j:@#ran*".toList =
      some MOD_RES_PASSTHRU :=
  ⟨C4_tier_not_held_passthru specServer scenarioUser scenarioChan '@' ":#ran*".toList
      ⟨'@', 'o', 30000⟩ (by decide) (by decide) (by decide),
   by decide,
   C4_tier_not_held_passthru specServer scenarioUser scenarioChan '@' "#ran*".toList
      ⟨'@', 'o', 30000⟩ (by decide) (by decide) (by decide)⟩

/-- C5: with `HasMode` as the spec words it (the user holds at least that
tier), a mask requiring tier `T` is denied at a membership in a channel whose
name matches the pattern as soon as the tier held there is `T` or one of
higher rank. -/
theorem C5_at_least_tier_deny (find : Char → Option PrefixMode)
    (M : List Char → List Char → Bool) (user : User) (c : Channel) (T t : Char)
    (P : List Char) (mh held : PrefixMode) (m : Membership)
    (hT : find T = some mh) (hm : m ∈ user.chans) (hP : M m.chan.name P = true)
    (ht : m.tier = some t) (hheld : find t = some held) (hrank : mh.rank ≤ held.rank) :
    OnCheckBan ⟨find, M, HasMode find⟩ user c ('j' :: ':' :: T :: P) =
      some MOD_RES_DENY := by
  rw [OnCheckBan_tier ⟨find, M, HasMode find⟩ user c T P mh hT]
  have hH : HasMode find m mh = true := by simp [HasMode, ht, hheld, hrank]
  have hany : (user.chans.any fun i =>
      M i.chan.name P && (decide (mh.modeChar = NUL) || HasMode find i mh)) = true :=
    List.any_eq_true.mpr ⟨m, hm, by simp [hP, hH]⟩
  simp [verdictOf, hany]

/-- C5, at a founder (`~`, ranked above `@`) of `#general` and the mask
`j:@#gen*`. -/
theorem C5_at_least_tier_deny_witness :
    (30000 : Nat) < 50000 ∧
    OnCheckBan specServer founderUser scenarioChan "j:@#gen*".toList = some MOD_RES_DENY :=
  ⟨by decide,
   C5_at_least_tier_deny (FindPrefix prefixModes) Match founderUser scenarioChan '@' '~' "#gen*".toList
    ⟨'@', 'o', 30000⟩ ⟨'~', 'q', 50000⟩ ⟨⟨"#general".toList⟩, some '~'⟩
    (by decide) (by decide) (by decide) (by decide) (by decide) (by decide)⟩

/-- C9: on the mask `j:` + `T` + `P`, where `T` names a privilege tier with a
non-zero mode letter and only that one character is stripped, `OnCheckBan`
returns DENY exactly when the user belongs to a channel whose name matches
`P` and whose membership has the mode of `T`, and PASSTHRU otherwise. -/
theorem C9_tier_mask_iff (S : InspIRCd) (user : User) (c : Channel) (T : Char)
    (P : List Char) (mh : PrefixMode) (hT : S.FindPrefix T = some mh)
    (hz : mh.modeChar ≠ NUL) :
    (OnCheckBan S user c ('j' :: ':' :: T :: P) = some MOD_RES_DENY ↔
      ∃ m ∈ user.chans, S.Match m.chan.name P = true ∧ S.HasMode m mh = true) ∧
    ((¬ ∃ m ∈ user.chans, S.Match m.chan.name P = true ∧ S.HasMode m mh = true) →
      OnCheckBan S user c ('j' :: ':' :: T :: P) = some MOD_RES_PASSTHRU) := by
  rw [OnCheckBan_tier S user c T P mh hT]
  cases hany : (user.chans.any fun i =>
      S.Match i.chan.name P && (decide (mh.modeChar = NUL) || S.HasMode i mh)) with
  | false =>
    have hno : ¬ ∃ m ∈ user.chans, S.Match m.chan.name P = true ∧ S.HasMode m mh = true := by
      intro ⟨m, hm, hp, hh⟩
      have : (user.chans.any fun i =>
          S.Match i.chan.name P && (decide (mh.modeChar = NUL) || S.HasMode i mh)) = true :=
        List.any_eq_true.mpr ⟨m, hm, by simp [hp, hh]⟩
      simp [hany] at this
    simp [verdictOf, hno]
  | true =>
    have hyes : ∃ m ∈ user.chans, S.Match m.chan.name P = true ∧ S.HasMode m mh = true := by
      obtain ⟨m, hm, hb⟩ := List.any_eq_true.mp hany
      simp [hz] at hb
      exact ⟨m, hm, hb⟩
    simp [verdictOf, hyes]

/-- C9, at the scenario: `j:@#gen*` is DENY (operator in `#general`) and
`j:+#xyz*` is PASSTHRU (no channel matches). -/
theorem C9_tier_mask_iff_witness :
    OnCheckBan specServer scenarioUser scenarioChan "j:@#gen*".toList = some MOD_RES_DENY ∧
    OnCheckBan specServer scenarioUser scenarioChan "j:+#xyz*".toList =
      some MOD_RES_PASSTHRU :=
  ⟨(C9_tier_mask_iff specServer scenarioUser scenarioChan '@' "#gen*".toList
      ⟨'@', 'o', 30000⟩ (by decide) (by decide)).1.mpr (by decide),
   (C9_tier_mask_iff specServer scenarioUser scenarioChan '+' "#xyz*".toList
      ⟨'+', 'v', 10000⟩ (by decide) (by decide)).2 (by decide)⟩

/-- C10: `OnCheckBan` returns on every user, channel and mask, the verdict is
DENY or PASSTHRU and never ALLOW, and it is PASSTHRU for a user who belongs
to no channel. -/
theorem C10_never_allow (S : InspIRCd) (user : User) (c : Channel) (mask : List Char) :
    (OnCheckBan S user c mask = some MOD_RES_DENY ∨
      OnCheckBan S user c mask = some MOD_RES_PASSTHRU) ∧
    OnCheckBan S user c mask ≠ some MOD_RES_ALLOW ∧
    (user.chans = [] → OnCheckBan S user c mask = some MOD_RES_PASSTHRU) := by
  obtain ⟨b, hb, hempty⟩ := OnCheckBan_verdict S user c mask
  rw [hb]
  refine ⟨?_, ?_, ?_⟩
  · cases b <;> simp [verdictOf]
  · cases b <;> simp [verdictOf]
  · intro hc
    simp [hempty hc, verdictOf]

/-- C10, at a user who belongs to no channel and the mask `j:@#gen*`. -/
theorem C10_never_allow_witness :
    OnCheckBan specServer loneUser scenarioChan "j:@#gen*".toList = some MOD_RES_PASSTHRU :=
  (C10_never_allow specServer loneUser scenarioChan "j:@#gen*".toList).2.2 (by decide)

end ChannelBan

namespace CTables

/-! ## The claims on `command_t` and the command table -/

/-- C6: a newly constructed `command_t(cmd, flags, minpara)` has
`command = cmd`, `flags_needed = flags`, `min_params = minpara`, both
counters zero and the owner `source` equal to the core sentinel `<core>`. -/
theorem C6_constructor_fields (cmd : List Char) (flags : Char) (minpara u b : Int) :
    (command_t.ctor cmd flags minpara u b).command = cmd ∧
    (command_t.ctor cmd flags minpara u b).flags_needed = flags ∧
    (command_t.ctor cmd flags minpara u b).min_params = minpara ∧
    (command_t.ctor cmd flags minpara u b).use_count = 0 ∧
    (command_t.ctor cmd flags minpara u b).total_bytes = 0 ∧
    (command_t.ctor cmd flags minpara u b).source = ['<', 'c', 'o', 'r', 'e', '>'] := by
  refine ⟨rfl, rfl, rfl, rfl, rfl, rfl⟩

/-- A dispatch that passes validation does reach the handler and the
counters: `PRIVMSG` with two parameters of 8 and 2 bytes. -/
theorem Dispatch_sample_accounted :
    (Dispatch sampleTable "PRIVMSG".toList ["#general".toList, "hi".toList] []).1 =
      Except.ok HandlerResult.handled ∧
    (Dispatch sampleTable "PRIVMSG".toList ["#general".toList, "hi".toList] []).2.invoked =
      [("PRIVMSG".toList, ["#general".toList, "hi".toList])] ∧
    ((Dispatch sampleTable "PRIVMSG".toList ["#general".toList, "hi".toList] []).2.entries.map
      fun x => (x.cmd.use_count, x.cmd.total_bytes)) = [(4, 50)] := by
  refine ⟨rfl, by decide, by decide⟩

/-- C7: for a registered command and a parameter list shorter than its
`min_params`, `Dispatch` yields `InsufficientParamsError` whatever the
parameters and the invoker's flags are, and leaves the table as it was: no
handler invocation is recorded and no counter changes. -/
theorem C7_insufficient_params (t : CommandTable) (name : List Char)
    (params : List (List Char)) (invokerPrivilegeFlags : List Char) (e : Entry)
    (hreg : t.find name = some e) (hlt : (params.length : Int) < e.cmd.min_params) :
    Dispatch t name params invokerPrivilegeFlags =
      (Except.error DispatchError.InsufficientParamsError, t) ∧
    (Dispatch t name params invokerPrivilegeFlags).2.invoked = t.invoked ∧
    ((Dispatch t name params invokerPrivilegeFlags).2.find name).map
      (fun x => (x.cmd.use_count, x.cmd.total_bytes)) =
        some (e.cmd.use_count, e.cmd.total_bytes) := by
  have hd : Dispatch t name params invokerPrivilegeFlags =
      (Except.error DispatchError.InsufficientParamsError, t) := by
    simp [Dispatch, hreg, hlt]
  rw [hd]
  simp [hreg]

/-- C7, at `PRIVMSG` (two parameters needed) dispatched with one. -/
theorem C7_insufficient_params_witness :
    (Dispatch sampleTable "PRIVMSG".toList ["#general".toList] []).1 =
      Except.error DispatchError.InsufficientParamsError ∧
    (Dispatch sampleTable "PRIVMSG".toList ["#general".toList] []).2.invoked = [] :=
  ⟨congrArg Prod.fst (C7_insufficient_params sampleTable "PRIVMSG".toList
      ["#general".toList] [] privmsgEntry rfl (by decide)).1,
   (C7_insufficient_params sampleTable "PRIVMSG".toList
      ["#general".toList] [] privmsgEntry rfl (by decide)).2.1⟩

end CTables

namespace EventChain

open ChannelBan (ModResult)
open ChannelBan.ModResult

/-! ## The claim on `Fire` -/

instance before_total {π : Type} : IsTotal (Subscription π) before :=
  ⟨fun a b => by unfold before; omega⟩

instance before_trans {π : Type} : IsTrans (Subscription π) before :=
  ⟨fun a b c => by unfold before; omega⟩

/-- The listeners before the first authoritative one are all invoked, that
one decides, and nothing after it is invoked. -/
theorem runChain_first {π : Type} (payload : π) (pre : List (Subscription π))
    (l : Subscription π) (post : List (Subscription π))
    (hpre : ∀ x ∈ pre, ¬ authoritative payload x) (hl : authoritative payload l) :
    some (runChain payload (pre ++ l :: post)).verdict = l.listener payload ∧
    (runChain payload (pre ++ l :: post)).invoked = (pre ++ [l]).map (fun s => s.id) := by
  induction pre with
  | nil =>
    rcases hl with h | h <;> simp [runChain, h]
  | cons x pre ih =>
    have hx : ¬ authoritative payload x := hpre x (List.mem_cons_self _ _)
    have ih2 := ih (fun y hy => hpre y (List.mem_cons_of_mem _ hy))
    cases hxl : x.listener payload with
    | none => simpa [runChain, hxl] using ih2
    | some v =>
      cases v with
      | MOD_RES_DENY => exact absurd (Or.inr hxl) hx
      | MOD_RES_ALLOW => exact absurd (Or.inl hxl) hx
      | MOD_RES_PASSTHRU => simpa [runChain, hxl] using ih2

/-- With no authoritative listener every listener is invoked and the verdict
is PASSTHRU. -/
theorem runChain_none {π : Type} (payload : π) (ls : List (Subscription π))
    (h : ∀ x ∈ ls, ¬ authoritative payload x) :
    (runChain payload ls).verdict = MOD_RES_PASSTHRU ∧
    (runChain payload ls).invoked = ls.map (fun s => s.id) := by
  induction ls with
  | nil => simp [runChain]
  | cons x ls ih =>
    have hx : ¬ authoritative payload x := h x (List.mem_cons_self _ _)
    have ih2 := ih (fun y hy => h y (List.mem_cons_of_mem _ hy))
    cases hxl : x.listener payload with
    | none => simpa [runChain, hxl] using ih2
    | some v =>
      cases v with
      | MOD_RES_DENY => exact absurd (Or.inr hxl) hx
      | MOD_RES_ALLOW => exact absurd (Or.inl hxl) hx
      | MOD_RES_PASSTHRU => simpa [runChain, hxl] using ih2

/-- C8: `Fire` visits the subscribers of the event type in priority-then-
registration order; it returns the verdict of the first listener that
returns ALLOW or DENY, having invoked the listeners up to that one and none
after it; with no subscriber, or none returning ALLOW or DENY, it returns
PASSTHRU. -/
theorem C8_fire_first_authoritative {π : Type} (subs : List (Subscription π))
    (ev : EventType) (payload : π) :
    List.Sorted before (chainOrder subs ev) ∧
    List.Perm (chainOrder subs ev) (subs.filter fun s => decide (s.eventType = ev)) ∧
    (∀ pre l post, chainOrder subs ev = pre ++ l :: post →
      (∀ x ∈ pre, ¬ authoritative payload x) → authoritative payload l →
        some (Fire subs ev payload).verdict = l.listener payload ∧
        (Fire subs ev payload).invoked = (pre ++ [l]).map (fun s => s.id)) ∧
    ((∀ x ∈ chainOrder subs ev, x.listener payload = some MOD_RES_PASSTHRU) →
      (Fire subs ev payload).verdict = MOD_RES_PASSTHRU) ∧
    (chainOrder subs ev = [] → (Fire subs ev payload).verdict = MOD_RES_PASSTHRU) := by
  refine ⟨List.sorted_insertionSort before _, List.perm_insertionSort before _, ?_, ?_, ?_⟩
  · intro pre l post hsplit hpre hl
    unfold Fire
    rw [hsplit]
    exact runChain_first payload pre l post hpre hl
  · intro hall
    unfold Fire
    refine (runChain_none payload _ ?_).1
    intro x hx hauth
    rcases hauth with h | h <;> simp [hall x hx] at h
  · intro hnil
    simp [Fire, hnil, runChain]

/-- C8, with a spy placed after a forced DENY: the order is passer, denier,
spy; `Fire` returns DENY having invoked the passer and the denier only; an
event type with no subscriber gives PASSTHRU. -/
theorem C8_fire_first_authoritative_witness :
    (chainOrder sampleSubs EventType.CheckBan).map (fun s => s.id) = [10, 11, 12] ∧
    (Fire sampleSubs EventType.CheckBan ()).verdict = MOD_RES_DENY ∧
    (Fire sampleSubs EventType.CheckBan ()).invoked = [10, 11] ∧
    (Fire ([] : List (Subscription Unit)) EventType.CheckBan ()).verdict = MOD_RES_PASSTHRU :=
  have h := (C8_fire_first_authoritative sampleSubs EventType.CheckBan ()).2.2.1
    [passer] denier [spy] rfl (by decide) (Or.inr rfl)
  ⟨by decide, Option.some.inj h.1, h.2,
   (C8_fire_first_authoritative ([] : List (Subscription Unit)) EventType.CheckBan ()).2.2.2.2
    rfl⟩

end EventChain

namespace ChannelBan

open ModResult

/-! ## Totality, the channel argument and the membership list -/

/-- The verdict is that of a test of the single memberships, fixed by the
server and the mask, tried over the membership list of the user. -/
theorem OnCheckBan_any (S : InspIRCd) (c : Channel) (mask : List Char) :
    ∃ f : Membership → Bool, ∀ user : User,
      OnCheckBan S user c mask = some (verdictOf (user.chans.any f)) := by
  obtain ⟨g, hg⟩ := maskGuard_total mask
  cases g with
  | false =>
    refine ⟨fun _ => false, fun user => ?_⟩
    have hany : (user.chans.any fun _ => false) = false := by
      rw [List.any_eq_false]
      intro m _
      simp
    simp [OnCheckBan, hg, verdictOf, hany]
  | true =>
    obtain ⟨r, rest, rfl⟩ := maskGuard_true mask hg
    cases hf : S.FindPrefix r with
    | none => exact ⟨_, fun user => OnCheckBan_bare S user c r rest hf⟩
    | some p => exact ⟨_, fun user => OnCheckBan_tier S user c r rest p hf⟩

/-- A test that succeeds somewhere in a list succeeds in every list that
contains its members. -/
theorem any_mono (f : Membership → Bool) (L L2 : List Membership)
    (hsub : ∀ m ∈ L, m ∈ L2) (h : L.any f = true) : L2.any f = true := by
  obtain ⟨m, hm, hfm⟩ := List.any_eq_true.mp h
  exact List.any_eq_true.mpr ⟨m, hsub m hm, hfm⟩

/-- C11: `OnCheckBan` returns a verdict on every input, no index or
substring being out of range: the guard is defined and passes exactly on the
masks longer than 2 that begin `j:`; on those the remainder after `j:` is
non-empty, its first character is read inside it, and the substring from
position 3 is defined; the bare mask `j:` yields PASSTHRU. -/
theorem C11_total_in_range (S : InspIRCd) (user : User) (c : Channel) (mask : List Char) :
    (∃ v, OnCheckBan S user c mask = some v) ∧
    (∃ g, maskGuard mask = some g) ∧
    (maskGuard mask = some true ↔ 2 < mask.length ∧ ['j', ':'] <+: mask) ∧
    (maskGuard mask = some true →
      ∃ rm0 r0 rm1, std_substr mask 2 = some rm0 ∧ rm0 ≠ [] ∧
        std_index rm0 0 = some r0 ∧ rm0.head? = some r0 ∧
        std_substr mask 3 = some rm1 ∧ rm0 = r0 :: rm1) ∧
    OnCheckBan S user c ['j', ':'] = some MOD_RES_PASSTHRU := by
  refine ⟨?_, maskGuard_total mask, ⟨?_, ?_⟩, ?_, ?_⟩
  · obtain ⟨b, hb, _⟩ := OnCheckBan_verdict S user c mask
    exact ⟨_, hb⟩
  · intro hg
    obtain ⟨r, rest, rfl⟩ := maskGuard_true mask hg
    exact ⟨by simp, ⟨r :: rest, by simp⟩⟩
  · intro ⟨hlen, t, ht⟩
    subst ht
    match t, hlen with
    | [], hlen => simp at hlen
    | r :: rest, _ => exact maskGuard_tagged r rest
  · intro hg
    obtain ⟨r, rest, rfl⟩ := maskGuard_true mask hg
    exact ⟨r :: rest, r, rest, by simp [std_substr], by simp, by simp [std_index],
      by simp, by simp [std_substr], rfl⟩
  · simp [OnCheckBan, maskGuard_short]

/-- C11, at the three-character mask `j:@`: the guard passes, the remainder
is `@`, the substring from position 3 is the empty string, and the hook
returns; at `j:` it returns PASSTHRU. -/
theorem C11_total_in_range_witness :
    maskGuard "j:@".toList = some true ∧
    std_substr "j:@".toList 3 = some [] ∧
    (∃ rm0 r0 rm1, std_substr "j:@".toList 2 = some rm0 ∧ rm0 ≠ [] ∧
        std_index rm0 0 = some r0 ∧ rm0.head? = some r0 ∧
        std_substr "j:@".toList 3 = some rm1 ∧ rm0 = r0 :: rm1) ∧
    OnCheckBan specServer scenarioUser scenarioChan "j:".toList = some MOD_RES_PASSTHRU :=
  ⟨by decide, by decide,
   (C11_total_in_range specServer scenarioUser scenarioChan "j:@".toList).2.2.2.1 (by decide),
   (C11_total_in_range specServer scenarioUser scenarioChan "j:@".toList).2.2.2.2⟩

/-- C12: the verdict of `OnCheckBan` does not depend on the channel the ban
is checked on: for every user, mask and two channels it is the same. -/
theorem C12_channel_independent (S : InspIRCd) (user : User) (c1 c2 : Channel)
    (mask : List Char) :
    OnCheckBan S user c1 mask = OnCheckBan S user c2 mask := by
  unfold OnCheckBan
  rfl

/-- C13: `OnCheckBan` is monotone in the membership list and blind to its
order: a mask denied for the list `L` is denied for every list that contains
the memberships of `L`, and two lists with the same memberships get the same
verdict. -/
theorem C13_membership_monotone (S : InspIRCd) (c : Channel) (mask : List Char)
    (L L2 : List Membership) :
    ((∀ m ∈ L, m ∈ L2) → OnCheckBan S ⟨L⟩ c mask = some MOD_RES_DENY →
      OnCheckBan S ⟨L2⟩ c mask = some MOD_RES_DENY) ∧
    ((∀ m, m ∈ L ↔ m ∈ L2) → OnCheckBan S ⟨L⟩ c mask = OnCheckBan S ⟨L2⟩ c mask) := by
  obtain ⟨f, hf⟩ := OnCheckBan_any S c mask
  rw [hf ⟨L⟩, hf ⟨L2⟩]
  constructor
  · intro hsub hdeny
    cases hL : L.any f with
    | false => simp [verdictOf, hL] at hdeny
    | true => simp [verdictOf, any_mono f L L2 hsub hL]
  · intro hsame
    cases hL : L.any f with
    | true => simp [any_mono f L L2 (fun m hm => (hsame m).mp hm) hL]
    | false =>
      cases hL2 : L2.any f with
      | false => rfl
      | true =>
        have := any_mono f L2 L (fun m hm => (hsame m).mpr hm) hL2
        simp [hL] at this

/-- C13, at the scenario: `j:@#gen*` is denied for the single membership of
`#general`, hence for the user who has joined `#random` as well, with the
new membership put first. -/
theorem C13_membership_monotone_witness :
    OnCheckBan specServer ⟨[⟨⟨"#random".toList⟩, none⟩, ⟨⟨"#general".toList⟩, some '@'⟩]⟩
      scenarioChan "j:@#gen*".toList = some MOD_RES_DENY :=
  (C13_membership_monotone specServer scenarioChan "j:@#gen*".toList
    [⟨⟨"#general".toList⟩, some '@'⟩]
    [⟨⟨"#random".toList⟩, none⟩, ⟨⟨"#general".toList⟩, some '@'⟩]).1
    (by decide) (by decide)

/-! ## The claim on `OnBuildISupport` -/

theorem value_nil (k : List Char) : TokenMap.value [] k = none := rfl

theorem value_cons (e : List Char × List Char) (rest : TokenMap) (k : List Char) :
    TokenMap.value (e :: rest) k = if e.1 = k then some e.2 else TokenMap.value rest k := by
  by_cases h : e.1 = k <;> simp [TokenMap.value, List.find?, h]

theorem value_append_entry (tokens : TokenMap) (key k : List Char) :
    TokenMap.value (tokens ++ [(key, [])]) k =
      match TokenMap.value tokens k with
      | some v => some v
      | none => if key = k then some [] else none := by
  induction tokens with
  | nil => simp [value_cons, value_nil]
  | cons e rest ih =>
    rw [List.cons_append, value_cons, value_cons]
    by_cases h : e.1 = k
    · simp [h]
    · simp [h, ih]

theorem value_push_back_same (key : List Char) (ch : Char) (tokens : TokenMap)
    (v : List Char) (h : TokenMap.value tokens key = some v) :
    TokenMap.value (TokenMap.push_back key ch tokens) key = some (v ++ [ch]) := by
  induction tokens with
  | nil => simp [value_nil] at h
  | cons e rest ih =>
    rw [value_cons] at h
    by_cases he : e.1 = key
    · simp [he] at h
      simp [TokenMap.push_back, value_cons, he, h]
    · simp [he] at h
      simp [TokenMap.push_back, value_cons, he, ih h]

theorem value_push_back_other (key k : List Char) (ch : Char) (tokens : TokenMap)
    (hk : k ≠ key) :
    TokenMap.value (TokenMap.push_back key ch tokens) k = TokenMap.value tokens k := by
  induction tokens with
  | nil => rfl
  | cons e rest ih =>
    by_cases he : e.1 = key
    · have hek : ¬ e.1 = k := fun h => hk (h.symm.trans he)
      have hkk : ¬ key = k := fun h => hk h.symm
      simp [TokenMap.push_back, value_cons, he, hkk]
    · by_cases hek : e.1 = k
      · subst hek
        simp [TokenMap.push_back, value_cons, he]
      · simp [TokenMap.push_back, value_cons, he, hek, ih]

theorem value_subscript_same (key : List Char) (tokens : TokenMap) :
    TokenMap.value (TokenMap.subscript tokens key) key =
      some ((TokenMap.value tokens key).getD []) := by
  cases h : TokenMap.value tokens key with
  | some v => simp [TokenMap.subscript, h]
  | none => simp [TokenMap.subscript, h, value_append_entry]

theorem value_subscript_other (key k : List Char) (tokens : TokenMap) (hk : k ≠ key) :
    TokenMap.value (TokenMap.subscript tokens key) k = TokenMap.value tokens k := by
  have hkk : ¬ key = k := fun h => hk h.symm
  cases h : TokenMap.value tokens key with
  | some v => simp [TokenMap.subscript, h]
  | none =>
    simp only [TokenMap.subscript, h, value_append_entry]
    cases TokenMap.value tokens k <;> simp [hkk]

/-- The entries of the other keys, in their order, stay as they are under
`push_back` through the entry of `key`. -/
theorem filter_push_back (key : List Char) (ch : Char) (tokens : TokenMap) :
    (TokenMap.push_back key ch tokens).filter (fun e => decide (e.1 ≠ key)) =
      tokens.filter (fun e => decide (e.1 ≠ key)) := by
  induction tokens with
  | nil => rfl
  | cons e rest ih =>
    by_cases he : e.1 = key
    · simp [TokenMap.push_back, he]
    · simp only [TokenMap.push_back, he, if_false]
      simp only [List.filter_cons, ih]

theorem filter_subscript (key : List Char) (tokens : TokenMap) :
    (TokenMap.subscript tokens key).filter (fun e => decide (e.1 ≠ key)) =
      tokens.filter (fun e => decide (e.1 ≠ key)) := by
  cases h : TokenMap.value tokens key with
  | some v => simp [TokenMap.subscript, h]
  | none => simp [TokenMap.subscript, h, List.filter_append]

/-- C14: `OnBuildISupport` sets the value of the `EXTBAN` token to its
previous value (the empty string if the token was absent) with the single
character `j` appended, and leaves every other token as it was: its value,
its presence, and the entries of the other keys in their order. -/
theorem C14_extban_appended (tokens : TokenMap) :
    TokenMap.value (OnBuildISupport tokens) "EXTBAN".toList =
      some ((TokenMap.value tokens "EXTBAN".toList).getD [] ++ ['j']) ∧
    (∀ k, k ≠ "EXTBAN".toList →
      TokenMap.value (OnBuildISupport tokens) k = TokenMap.value tokens k) ∧
    (OnBuildISupport tokens).filter (fun e => decide (e.1 ≠ "EXTBAN".toList)) =
      tokens.filter (fun e => decide (e.1 ≠ "EXTBAN".toList)) := by
  refine ⟨?_, ?_, ?_⟩
  · exact value_push_back_same _ _ _ _ (value_subscript_same _ _)
  · intro k hk
    unfold OnBuildISupport
    rw [value_push_back_other _ _ _ _ hk, value_subscript_other _ _ _ hk]
  · unfold OnBuildISupport
    rw [filter_push_back, filter_subscript]

/-- C14, at a map that advertises `EXTBAN=,c` (the value becomes `,cj`, and
`NICKLEN` keeps `31`) and at a map without the token (the value becomes
`j`). -/
theorem C14_extban_appended_witness :
    TokenMap.value (OnBuildISupport sampleTokens) "EXTBAN".toList = some ",cj".toList ∧
    TokenMap.value (OnBuildISupport sampleTokens) "NICKLEN".toList = some "31".toList ∧
    TokenMap.value (OnBuildISupport bareTokens) "EXTBAN".toList = some "j".toList :=
  ⟨(C14_extban_appended sampleTokens).1,
   ((C14_extban_appended sampleTokens).2.1 "NICKLEN".toList (by decide)).trans (by decide),
   (C14_extban_appended bareTokens).1⟩

end ChannelBan
